import Mathlib

/-!
Shallow embedding of the TIS-NET core (src/main.rs of svcxc/tis-net) in Lean 4.

The live program is `src/main.rs` (the other files under `src/` are an
uncompiled parallel rewrite; where a claim depends on them this development
embeds the relevant function separately and says so).  Machine integers are
modelled as `Int`/`Nat` with the saturation or two's-complement wrapping the
Rust operations perform in release builds made explicit; a `panic!` that can
fire in every build profile (out-of-bounds indexing, `ArrayString::push_str`
capacity overflow) is modelled by an `Option` result, `none` meaning the
program panics.
-/

set_option maxRecDepth 10000

deriving instance DecidableEq for Except

/-- The four port directions (`Dir` in src/main.rs). -/
inductive Dir : Type
  | up
  | down
  | left
  | right
deriving DecidableEq

/-- `Dir::ALL` — the fixed traversal order used by `seek_nodes`. -/
def Dir.ALL : List Dir := [Dir.up, Dir.down, Dir.left, Dir.right]

/-- `Dir::inverse`. -/
def Dir.inverse : Dir → Dir
  | Dir.up => Dir.down
  | Dir.down => Dir.up
  | Dir.left => Dir.right
  | Dir.right => Dir.left

/-- Two's-complement wrap into the `isize` range (release-build semantics of
`y - 1` / `y + 1` in `NodeCoord::neighbor`). -/
def wrapIsize (a : Int) : Int := (a + 2 ^ 63) % 2 ^ 64 - 2 ^ 63

/-- `NodeCoord` — a grid coordinate (two `isize` fields). -/
structure NodeCoord : Type where
  x : Int
  y : Int
deriving DecidableEq

/-- `NodeCoord::at`. -/
def NodeCoord.at (x y : Int) : NodeCoord := ⟨x, y⟩

/-- `NodeCoord::neighbor`. -/
def NodeCoord.neighbor (c : NodeCoord) (d : Dir) : NodeCoord :=
  match d with
  | Dir.up => ⟨c.x, wrapIsize (c.y - 1)⟩
  | Dir.down => ⟨c.x, wrapIsize (c.y + 1)⟩
  | Dir.left => ⟨wrapIsize (c.x - 1), c.y⟩
  | Dir.right => ⟨wrapIsize (c.x + 1), c.y⟩

/-- `i8::saturating_add` on in-range values (`Num = i8` in src/main.rs). -/
def satAdd (a b : Int) : Int := max (-128) (min 127 (a + b))

/-- `i8::saturating_sub` on in-range values. -/
def satSub (a b : Int) : Int := max (-128) (min 127 (a - b))

/-- Two's-complement wrap into the `i8` range. -/
def wrap8 (a : Int) : Int := (a + 128) % 256 - 128

/-- Constants from src/main.rs. -/
def NODE_LINE_LENGTH : Nat := 18

def NODE_LINES : Nat := 15

def NODE_TEXT_BUFFER_SIZE : Nat := (NODE_LINE_LENGTH + 1) * NODE_LINES

/-- A `Src` operand (src/main.rs — note: no `ANY`/`LAST` variants exist there). -/
inductive Src : Type
  | imm (n : Int)
  | dir (d : Dir)
  | acc
  | nil
deriving DecidableEq

/-- A `Dst` operand (src/main.rs). -/
inductive Dst : Type
  | dir (d : Dir)
  | acc
  | nil
deriving DecidableEq

/-- `Op<Label>` — the opcode sum type, generic over the jump-label
representation (`&str` before resolution, `u8` after). -/
inductive Op (L : Type) : Type
  | mov (s : Src) (d : Dst)
  | nop
  | swp
  | sav
  | add (s : Src)
  | sub (s : Src)
  | neg
  | jmp (t : L)
  | jez (t : L)
  | jnz (t : L)
  | jgz (t : L)
  | jlz (t : L)
  | jro (s : Src)
deriving DecidableEq

/-- `Instruction<Label>`. -/
structure Instruction (L : Type) : Type where
  op : Op L
  srcLine : Nat
deriving DecidableEq

/-- `ParseProblem`. -/
inductive ParseProblem : Type
  | notEnoughArgs
  | tooManyArgs
  | invalidSrc
  | invalidDst
  | invalidInstruction
  | undefinedLabel
deriving DecidableEq

/-- `ParseErr`. -/
structure ParseErr : Type where
  problem : ParseProblem
  line : Nat
deriving DecidableEq

/-- ASCII whitespace, as recognised by Rust `split_ascii_whitespace`. -/
def asciiWhitespace (c : Char) : Bool :=
  c = ' ' || c = '\t' || c = '\n' || c = '\r' || c = '\x0c'

/-- Split a character sequence at newlines (Rust `str::split('\n')`);
always yields at least one (possibly empty) line. -/
def splitLines : List Char → List (List Char)
  | [] => [[]]
  | c :: cs =>
      if c = '\n' then [] :: splitLines cs
      else
        match splitLines cs with
        | [] => [[c]]
        | l :: ls => (c :: l) :: ls

/-- Helper for `tokenize`: accumulate the current word. -/
def tokenizeGo : List Char → List Char → List (List Char)
  | [], acc => if acc = [] then [] else [acc.reverse]
  | c :: cs, acc =>
      if asciiWhitespace c then
        if acc = [] then tokenizeGo cs [] else acc.reverse :: tokenizeGo cs []
      else tokenizeGo cs (c :: acc)

/-- Rust `str::split_ascii_whitespace` as a token list. -/
def tokenize (cs : List Char) : List (List Char) := tokenizeGo cs []

/-- `full_line.split('#').next()` — the text before the first `#`. -/
def stripComment (cs : List Char) : List Char := cs.takeWhile (fun c => c ≠ '#')

/-- Rust `str::split_once(':')`. -/
def splitOnceColon (cs : List Char) : Option (List Char × List Char) :=
  if cs.contains ':' then
    some (cs.takeWhile (fun c => c ≠ ':'), (cs.dropWhile (fun c => c ≠ ':')).tail)
  else none

/-- Digit-string value; `none` when empty or containing a non-digit
(the digits part of Rust `i8::from_str`). -/
def parseDigits : List Char → Option Nat → Option Nat
  | [], acc => acc
  | c :: cs, acc =>
      if c.isDigit then
        parseDigits cs (some ((acc.getD 0) * 10 + (c.toNat - 48)))
      else none

/-- Rust `str::parse::<i8>()`: optional sign, digits, range check. -/
def parseI8 (cs : List Char) : Option Int :=
  match cs with
  | [] => none
  | '+' :: rest =>
      match parseDigits rest none with
      | some n => if n ≤ 127 then some (n : Int) else none
      | none => none
  | '-' :: rest =>
      match parseDigits rest none with
      | some n => if n ≤ 128 then some (-(n : Int)) else none
      | none => none
  | _ =>
      match parseDigits cs none with
      | some n => if n ≤ 127 then some (n : Int) else none
      | none => none

/-- `expect_src` (src/main.rs): pops one token; `ANY`/`LAST` are *not*
among the recognised tokens and fall through to integer parsing. -/
def expectSrc : List (List Char) → Nat → Except ParseErr (Src × List (List Char))
  | [], line => Except.error ⟨ParseProblem.notEnoughArgs, line⟩
  | arg :: rest, line =>
      if arg = ['A', 'C', 'C'] then Except.ok (Src.acc, rest)
      else if arg = ['U', 'P'] then Except.ok (Src.dir Dir.up, rest)
      else if arg = ['D', 'O', 'W', 'N'] then Except.ok (Src.dir Dir.down, rest)
      else if arg = ['L', 'E', 'F', 'T'] then Except.ok (Src.dir Dir.left, rest)
      else if arg = ['R', 'I', 'G', 'H', 'T'] then Except.ok (Src.dir Dir.right, rest)
      else if arg = ['N', 'I', 'L'] then Except.ok (Src.nil, rest)
      else
        match parseI8 arg with
        | some n => Except.ok (Src.imm n, rest)
        | none => Except.error ⟨ParseProblem.invalidSrc, line⟩

/-- `expect_dst` (src/main.rs): literals are never accepted; `ANY`/`LAST`
are not recognised either. -/
def expectDst : List (List Char) → Nat → Except ParseErr (Dst × List (List Char))
  | [], line => Except.error ⟨ParseProblem.notEnoughArgs, line⟩
  | arg :: rest, line =>
      if arg = ['A', 'C', 'C'] then Except.ok (Dst.acc, rest)
      else if arg = ['U', 'P'] then Except.ok (Dst.dir Dir.up, rest)
      else if arg = ['D', 'O', 'W', 'N'] then Except.ok (Dst.dir Dir.down, rest)
      else if arg = ['L', 'E', 'F', 'T'] then Except.ok (Dst.dir Dir.left, rest)
      else if arg = ['R', 'I', 'G', 'H', 'T'] then Except.ok (Dst.dir Dir.right, rest)
      else if arg = ['N', 'I', 'L'] then Except.ok (Dst.nil, rest)
      else Except.error ⟨ParseProblem.invalidDst, line⟩

/-- `expect_label`. -/
def expectLabel : List (List Char) → Nat →
    Except ParseErr (List Char × List (List Char))
  | [], line => Except.error ⟨ParseProblem.notEnoughArgs, line⟩
  | label :: rest, _ => Except.ok (label, rest)

/-- `tokens.next().is_some()` check after the expected arity. -/
def ensureEnd (toks : List (List Char)) (line : Nat) : Except ParseErr Unit :=
  match toks with
  | [] => Except.ok ()
  | _ :: _ => Except.error ⟨ParseProblem.tooManyArgs, line⟩

/-- The per-line opcode dispatch of `parse_node_text`. -/
def parseOp (opcode : List Char) (toks : List (List Char)) (line : Nat) :
    Except ParseErr (Op (List Char)) :=
  if opcode = ['M', 'O', 'V'] then do
    let (src, t1) ← expectSrc toks line
    let (dst, t2) ← expectDst t1 line
    let _ ← ensureEnd t2 line
    pure (Op.mov src dst)
  else if opcode = ['N', 'O', 'P'] then do
    let _ ← ensureEnd toks line
    pure Op.nop
  else if opcode = ['S', 'W', 'P'] then do
    let _ ← ensureEnd toks line
    pure Op.swp
  else if opcode = ['S', 'A', 'V'] then do
    let _ ← ensureEnd toks line
    pure Op.sav
  else if opcode = ['A', 'D', 'D'] then do
    let (src, t1) ← expectSrc toks line
    let _ ← ensureEnd t1 line
    pure (Op.add src)
  else if opcode = ['S', 'U', 'B'] then do
    let (src, t1) ← expectSrc toks line
    let _ ← ensureEnd t1 line
    pure (Op.sub src)
  else if opcode = ['N', 'E', 'G'] then do
    let _ ← ensureEnd toks line
    pure Op.neg
  else if opcode = ['J', 'M', 'P'] then do
    let (l, t1) ← expectLabel toks line
    let _ ← ensureEnd t1 line
    pure (Op.jmp l)
  else if opcode = ['J', 'E', 'Z'] then do
    let (l, t1) ← expectLabel toks line
    let _ ← ensureEnd t1 line
    pure (Op.jez l)
  else if opcode = ['J', 'N', 'Z'] then do
    let (l, t1) ← expectLabel toks line
    let _ ← ensureEnd t1 line
    pure (Op.jnz l)
  else if opcode = ['J', 'G', 'Z'] then do
    let (l, t1) ← expectLabel toks line
    let _ ← ensureEnd t1 line
    pure (Op.jgz l)
  else if opcode = ['J', 'L', 'Z'] then do
    let (l, t1) ← expectLabel toks line
    let _ ← ensureEnd t1 line
    pure (Op.jlz l)
  else if opcode = ['J', 'R', 'O'] then do
    let (src, t1) ← expectSrc toks line
    let _ ← ensureEnd t1 line
    pure (Op.jro src)
  else Except.error ⟨ParseProblem.invalidInstruction, line⟩

/-- The label table (`HashMap<&str, u8>`); a later insert shadows an
earlier binding of the same label. -/
def insertLabel (k : List Char) (v : Nat) (m : List (List Char × Nat)) :
    List (List Char × Nat) := (k, v) :: m

/-- Label lookup. -/
def lookupLabel (m : List (List Char × Nat)) (k : List Char) : Option Nat :=
  match m with
  | [] => none
  | (k', v) :: rest => if k' = k then some v else lookupLabel rest k

/-- The line loop of `parse_node_text`: builds the string-labelled code and
the label table. -/
def parseLinesGo :
    List (Nat × List Char) → List (Instruction (List Char)) →
    List (List Char × Nat) →
    Except ParseErr (List (Instruction (List Char)) × List (List Char × Nat))
  | [], code, labels => Except.ok (code, labels)
  | (lineNo, fullLine) :: rest, code, labels =>
      let semanticText := stripComment fullLine
      let p :=
        match splitOnceColon semanticText with
        | some (label, r) => (r, insertLabel label code.length labels)
        | none => (semanticText, labels)
      match tokenize p.1 with
      | [] => parseLinesGo rest code p.2
      | opcode :: toks =>
          match parseOp opcode toks lineNo with
          | Except.error e => Except.error e
          | Except.ok op => parseLinesGo rest (code ++ [⟨op, lineNo⟩]) p.2

/-- The label-resolution pass of `parse_node_text`. -/
def resolveInstr (labels : List (List Char × Nat)) (instr : Instruction (List Char)) :
    Except ParseErr (Instruction Nat) :=
  let resolve := fun (l : List Char) =>
    match lookupLabel labels l with
    | some t => Except.ok t
    | none => Except.error (⟨ParseProblem.undefinedLabel, instr.srcLine⟩ : ParseErr)
  match instr.op with
  | Op.mov src dst => Except.ok ⟨Op.mov src dst, instr.srcLine⟩
  | Op.nop => Except.ok ⟨Op.nop, instr.srcLine⟩
  | Op.swp => Except.ok ⟨Op.swp, instr.srcLine⟩
  | Op.sav => Except.ok ⟨Op.sav, instr.srcLine⟩
  | Op.add src => Except.ok ⟨Op.add src, instr.srcLine⟩
  | Op.sub src => Except.ok ⟨Op.sub src, instr.srcLine⟩
  | Op.neg => Except.ok ⟨Op.neg, instr.srcLine⟩
  | Op.jmp l => do pure ⟨Op.jmp (← resolve l), instr.srcLine⟩
  | Op.jez l => do pure ⟨Op.jez (← resolve l), instr.srcLine⟩
  | Op.jnz l => do pure ⟨Op.jnz (← resolve l), instr.srcLine⟩
  | Op.jgz l => do pure ⟨Op.jgz (← resolve l), instr.srcLine⟩
  | Op.jlz l => do pure ⟨Op.jlz (← resolve l), instr.srcLine⟩
  | Op.jro src => Except.ok ⟨Op.jro src, instr.srcLine⟩

/-- `parse_node_text` (src/main.rs): line loop, then label resolution,
stopping at the first error (`try_collect`). -/
def parseNodeText (text : List Char) : Except ParseErr (List (Instruction Nat)) := do
  let (code, labels) ← parseLinesGo (splitLines text).enum [] []
  code.mapM (resolveInstr labels)

/-- `validate` (src/main.rs): every line at most 18 characters and at most
15 lines. -/
def validate (text : List Char) : Bool :=
  (splitLines text).all (fun l => l.length ≤ NODE_LINE_LENGTH) &&
    (splitLines text).length ≤ NODE_LINES

/-- `NodeIO` (named `NodeIo` here): the tick-visible I/O surface of a
running node; `free` is the Rust variant `NodeIO::None` (renamed to avoid
clashing with `Option.none`). -/
inductive NodeIo : Type
  | free
  | outbound (d : Dir) (v : Int)
  | inbound (d : Dir)
deriving DecidableEq

/-- `NodeExec` — the runtime of a running node. -/
structure NodeExec : Type where
  acc : Int
  bak : Int
  code : List (Instruction Nat)
  io : NodeIo
  ip : Nat
deriving DecidableEq

/-- `NodeExec::inc_ip`: increment, wrapping to 0 at the end of the code. -/
def NodeExec.incIp (e : NodeExec) : NodeExec :=
  let newIp := e.ip + 1
  if e.code.length ≤ newIp then { e with ip := 0 } else { e with ip := newIp }

/-- `NodeExec::jro`: negative offsets saturating-subtract from `ip`,
non-negative offsets add and clamp to `len - 1`.  (`offset.abs() as u8`
equals `Int.natAbs` for every `i8`, including `-128`, under release
semantics.) -/
def NodeExec.jro (e : NodeExec) (offset : Int) : NodeExec :=
  if offset < 0 then
    { e with ip := e.ip - offset.natAbs }
  else
    let newIp := e.ip + offset.toNat
    if e.code.length ≤ newIp then { e with ip := e.code.length - 1 }
    else { e with ip := newIp }

/-- `NodeExec::init`: parse the node text and start with cleared registers. -/
def NodeExec.init (text : List Char) : Except ParseErr NodeExec :=
  match parseNodeText text with
  | Except.error e => Except.error e
  | Except.ok code => Except.ok ⟨0, 0, code, NodeIo.free, 0⟩

/-- `update_error`-style reparse: the stored parse error for a text. -/
def updateError (text : List Char) : Option ParseErr :=
  match parseNodeText text with
  | Except.error e => some e
  | Except.ok _ => none

/-- `ExecNode` (src/main.rs): text, cursors, optional parse error,
optional runtime. -/
structure ExecNode : Type where
  text : List Char
  cursor : Nat
  selectCursor : Nat
  error : Option ParseErr
  exec : Option NodeExec
deriving DecidableEq

/-- `ExecNode::empty`. -/
def ExecNode.empty : ExecNode := ⟨[], 0, 0, none, none⟩

/-- `ExecNode::selection_range`. -/
def ExecNode.selectionRange (n : ExecNode) : Nat × Nat :=
  if n.selectCursor < n.cursor then (n.selectCursor, n.cursor)
  else (n.cursor, n.selectCursor)

/-- `ExecNode::insert` (src/main.rs): splices `txt` over the selection into
a fresh `ArrayString`; `push_str` panics (`none`) when the result exceeds
the 285-byte buffer; otherwise the new text is kept only if `validate`
accepts it, in which case the cursor collapses after the insertion and the
parse error is recomputed. -/
def ExecNode.insert (n : ExecNode) (txt : List Char) : Option ExecNode :=
  let r := n.selectionRange
  let newText := n.text.take r.1 ++ txt ++ n.text.drop r.2
  if NODE_TEXT_BUFFER_SIZE < newText.length then none
  else if validate newText then
    some { n with
      text := newText
      cursor := r.1 + txt.length
      selectCursor := r.1 + txt.length
      error := updateError newText }
  else some n

/-- `ExecNode::insert` as written in the uncompiled rewrite
src/exec_node.rs: `try_push_str` fails gracefully instead of panicking, so
an oversized result simply leaves the node unchanged. -/
def ExecNode.insertRs (n : ExecNode) (txt : List Char) : Option ExecNode :=
  let r := n.selectionRange
  let newText := n.text.take r.1 ++ txt ++ n.text.drop r.2
  if newText.length ≤ NODE_TEXT_BUFFER_SIZE && validate newText then
    some { n with
      text := newText
      cursor := r.1 + txt.length
      selectCursor := r.1 + txt.length
      error := updateError newText }
  else some n

/-- The grid (`type Nodes = HashMap<NodeCoord, Node>`), as an association
list with unique keys maintained by `insertN`. -/
abbrev Nodes : Type := List (NodeCoord × ExecNode)

/-- `HashMap::get`. -/
def lookupN : Nodes → NodeCoord → Option ExecNode
  | [], _ => none
  | (k, v) :: rest, c => if k = c then some v else lookupN rest c

/-- `HashMap::contains_key`. -/
def containsN (m : Nodes) (c : NodeCoord) : Bool := (lookupN m c).isSome

/-- `HashMap::insert` (overwrites any existing binding). -/
def insertN (c : NodeCoord) (v : ExecNode) (m : Nodes) : Nodes :=
  (c, v) :: m.filter (fun p => decide (p.1 ≠ c))

/-- `HashMap::extend` with the entries of `upd`. -/
def extendN (base upd : Nodes) : Nodes :=
  upd.foldl (fun acc p => insertN p.1 p.2 acc) base

/-- `get_src_value` (src/main.rs).  State-passing version of the Rust
function mutating `exec` and `new_nodes`: returns the updated reader
runtime, the updated new grid, and the value when the read succeeded.  A
directional read marks the reader `Inbound`; it succeeds only when the
old-grid neighbour currently offers `Outbound` in the inverse direction,
in which case the neighbour's next-tick state (IP advanced, outbox
cleared) is written into the new grid as a side effect. -/
def getSrcValue (exec : NodeExec) (nodeLoc : NodeCoord) (oldNodes : Nodes)
    (newNodes : Nodes) : Src → NodeExec × Nodes × Option Int
  | Src.imm num => (exec, newNodes, some num)
  | Src.acc => (exec, newNodes, some exec.acc)
  | Src.nil => (exec, newNodes, some 0)
  | Src.dir targetDir =>
      let exec1 := { exec with io := NodeIo.inbound targetDir }
      let neighborLoc := nodeLoc.neighbor targetDir
      match lookupN oldNodes neighborLoc with
      | none => (exec1, newNodes, none)
      | some nbNode =>
          match nbNode.exec with
          | none => (exec1, newNodes, none)
          | some nbExec =>
              match nbExec.io with
              | NodeIo.outbound obDir value =>
                  if obDir = targetDir.inverse then
                    let nbExec1 := { nbExec.incIp with io := NodeIo.free }
                    let exec2 := { exec1 with io := NodeIo.free }
                    (exec2,
                      insertN neighborLoc { nbNode with exec := some nbExec1 } newNodes,
                      some value)
                  else (exec1, newNodes, none)
              | _ => (exec1, newNodes, none)

/-- The per-opcode body of `step_node_execution`: one instruction of a
running node, against the old grid, threading the new grid (for the
rendezvous side effect).  Returns the node's updated runtime and the
updated new grid. -/
def execInstr (ex : NodeExec) (nodeLoc : NodeCoord) (oldNodes newNodes : Nodes)
    (instr : Instruction Nat) : NodeExec × Nodes :=
  match instr.op with
  | Op.mov src dst =>
      let r := getSrcValue ex nodeLoc oldNodes newNodes src
      match r.2.2 with
      | some value =>
          match dst with
          | Dst.acc => (NodeExec.incIp { r.1 with acc := value }, r.2.1)
          | Dst.dir targetDir => ({ r.1 with io := NodeIo.outbound targetDir value }, r.2.1)
          | Dst.nil => (r.1.incIp, r.2.1)
      | none => (r.1, r.2.1)
  | Op.nop => (ex.incIp, newNodes)
  | Op.swp => (NodeExec.incIp { ex with acc := ex.bak, bak := ex.acc }, newNodes)
  | Op.sav => (NodeExec.incIp { ex with bak := ex.acc }, newNodes)
  | Op.add src =>
      let r := getSrcValue ex nodeLoc oldNodes newNodes src
      match r.2.2 with
      | some value => (NodeExec.incIp { r.1 with acc := satAdd r.1.acc value }, r.2.1)
      | none => (r.1, r.2.1)
  | Op.sub src =>
      let r := getSrcValue ex nodeLoc oldNodes newNodes src
      match r.2.2 with
      | some value => (NodeExec.incIp { r.1 with acc := satSub r.1.acc value }, r.2.1)
      | none => (r.1, r.2.1)
  | Op.neg => (NodeExec.incIp { ex with acc := wrap8 (-ex.acc) }, newNodes)
  | Op.jmp t => ({ ex with ip := t }, newNodes)
  | Op.jez t => (if ex.acc = 0 then { ex with ip := t } else ex.incIp, newNodes)
  | Op.jnz t => (if ex.acc ≠ 0 then { ex with ip := t } else ex.incIp, newNodes)
  | Op.jgz t => (if 0 < ex.acc then { ex with ip := t } else ex.incIp, newNodes)
  | Op.jlz t => (if ex.acc < 0 then { ex with ip := t } else ex.incIp, newNodes)
  | Op.jro src =>
      let r := getSrcValue ex nodeLoc oldNodes newNodes src
      match r.2.2 with
      | some value => (r.1.jro value, r.2.1)
      | none => (r.1, r.2.1)

/-- `step_node_execution` (src/main.rs).  `none` models the panic of the
unchecked instruction fetch `exec.code[exec.ip as usize]` when `ip` is out
of bounds; `Except.error`/`Except.ok` mirror the Rust `Result<Nodes, Nodes>`. -/
def stepNodeExecution (oldNodes newNodes : Nodes) (nodeLoc : NodeCoord) :
    Option (Except Nodes Nodes) :=
  match lookupN oldNodes nodeLoc with
  | none => some (Except.error newNodes)
  | some node =>
      if containsN newNodes nodeLoc then some (Except.error newNodes)
      else
        match node.exec with
        | none =>
            match NodeExec.init node.text with
            | Except.ok ex =>
                if ex.code.isEmpty then
                  some (Except.error (insertN nodeLoc node newNodes))
                else
                  some (Except.ok (insertN nodeLoc { node with exec := some ex } newNodes))
            | Except.error _ => some (Except.error (insertN nodeLoc node newNodes))
        | some ex =>
            match ex.io with
            | NodeIo.outbound _ _ => some (Except.ok (insertN nodeLoc node newNodes))
            | _ =>
                match ex.code.get? ex.ip with
                | none => none
                | some instr =>
                    let r := execInstr ex nodeLoc oldNodes newNodes instr
                    some (Except.ok (insertN nodeLoc { node with exec := some r.1 } r.2))

/-- `stop_node_execution` (src/main.rs): clears the runtime of a running
node; anything else is the error branch, with the new grid untouched. -/
def stopNodeExecution (oldNodes newNodes : Nodes) (nodeLoc : NodeCoord) :
    Option (Except Nodes Nodes) :=
  match lookupN oldNodes nodeLoc with
  | none => some (Except.error newNodes)
  | some node =>
      if containsN newNodes nodeLoc then some (Except.error newNodes)
      else
        match node.exec with
        | some _ => some (Except.ok (insertN nodeLoc { node with exec := none } newNodes))
        | none => some (Except.error newNodes)

/-- The body of the neighbour loop of `seek_nodes`: both `Ok` and `Err`
results of the recursive call keep the accumulated new grid. -/
def mergeSeek : Option (Except Nodes Nodes) → Option Nodes
  | none => none
  | some (Except.ok n) => some n
  | some (Except.error n) => some n

/-- `seek_nodes` (src/main.rs): depth-first flood fill from `start`,
applying `transform` and recursing into the four neighbours only when the
transform succeeded.  The `for neighbor_dir in Dir::ALL` loop is unrolled
into its four iterations (`Up`, `Down`, `Left`, `Right`, the order of
`Dir::ALL`).  Fuel makes the recursion structural; exhausted fuel acts
like a failing transform, so any concrete run is evaluated with fuel
exceeding the deepest chain of successful transforms (bounded by the
number of occupied cells). -/
def seekNodes (transform : Nodes → Nodes → NodeCoord → Option (Except Nodes Nodes)) :
    Nat → Nodes → Nodes → NodeCoord → Option (Except Nodes Nodes)
  | 0, _, newNodes, _ => some (Except.error newNodes)
  | fuel + 1, oldNodes, newNodes, startLoc =>
      match transform oldNodes newNodes startLoc with
      | none => none
      | some (Except.error n) => some (Except.error n)
      | some (Except.ok n) =>
          match mergeSeek (seekNodes transform fuel oldNodes n
              (startLoc.neighbor Dir.up)) with
          | none => none
          | some n1 =>
              match mergeSeek (seekNodes transform fuel oldNodes n1
                  (startLoc.neighbor Dir.down)) with
              | none => none
              | some n2 =>
                  match mergeSeek (seekNodes transform fuel oldNodes n2
                      (startLoc.neighbor Dir.left)) with
                  | none => none
                  | some n3 =>
                      match mergeSeek (seekNodes transform fuel oldNodes n3
                          (startLoc.neighbor Dir.right)) with
                      | none => none
                      | some n4 => some (Except.ok n4)

/-- `step_execution` (src/main.rs): `none` = panic, `some none` = the
`Err` branch (no step happened), `some (some m)` = the updated nodes. -/
def stepExecution (fuel : Nat) (nodes : Nodes) (startLoc : NodeCoord) :
    Option (Option Nodes) :=
  match seekNodes stepNodeExecution fuel nodes [] startLoc with
  | none => none
  | some (Except.ok m) => some (some m)
  | some (Except.error _) => some none

/-- The `Key::Tab` branch of `handle_input`: on a successful step the
updated nodes are merged over the old grid, otherwise the grid is kept.
`none` models a panic during the step. -/
def tabStep (fuel : Nat) (nodes : Nodes) (startLoc : NodeCoord) : Option Nodes :=
  match stepExecution fuel nodes startLoc with
  | none => none
  | some (some m) => some (extendN nodes m)
  | some none => some nodes

/-- Iterated `Tab` (N global ticks); `none` as soon as one tick panics. -/
def tabIter (fuel : Nat) (startLoc : NodeCoord) : Nat → Nodes → Option Nodes
  | 0, g => some g
  | n + 1, g =>
      match tabStep fuel g startLoc with
      | none => none
      | some g1 => tabIter fuel startLoc n g1

/-- `stop_execution` (src/main.rs): `some` = "stopped" (the updated
nodes), `none` = the `WasAlreadyStopped` signal (upstream, `Esc` exits the
application in that case). -/
def stopExecution (fuel : Nat) (nodes : Nodes) (startLoc : NodeCoord) : Option Nodes :=
  match seekNodes stopNodeExecution fuel nodes [] startLoc with
  | some (Except.ok m) => some m
  | _ => none

/-- A node is present and running at `c`. -/
def isRunningAt (g : Nodes) (c : NodeCoord) : Bool :=
  match lookupN g c with
  | some n => n.exec.isSome
  | none => false

/-- The runtime of the node at `c`, if present and running. -/
def lookupExec (g : Nodes) (c : NodeCoord) : Option NodeExec :=
  (lookupN g c).bind ExecNode.exec

/-- Pointwise sub-map relation on grids. -/
def submapN (a b : Nodes) : Prop :=
  ∀ c v, lookupN a c = some v → lookupN b c = some v

/-- Number of running entries of `old` whose coordinate is not yet in
`new` — the decreasing measure of the stop flood fill. -/
def countRunNotIn (old new : Nodes) : Nat :=
  (old.filter (fun p => p.2.exec.isSome && !containsN new p.1)).length

/-- Connectivity through running nodes: `ReachRunning g s b` holds when
`b` is reachable from `s` by a chain of adjacent running nodes (all
running, `s` included). -/
inductive ReachRunning (g : Nodes) (s : NodeCoord) : NodeCoord → Prop
  | refl (h : isRunningAt g s = true) : ReachRunning g s s
  | tail (b : NodeCoord) (d : Dir) (hr : ReachRunning g s b)
      (h : isRunningAt g (b.neighbor d) = true) : ReachRunning g s (b.neighbor d)

/-- Soundness of a stop flood fill: every entry of the result either was
already in the accumulator or is a previously running node with its
runtime discarded. -/
def StopSound (old new m : Nodes) : Prop :=
  ∀ c v, lookupN m c = some v →
    lookupN new c = some v ∨
      ∃ n, lookupN old c = some n ∧ n.exec.isSome = true ∧ v = { n with exec := none }

/-- Closure of a stop flood fill: a freshly inserted coordinate has all
its running neighbours in the result. -/
def StopClosed (old new m : Nodes) : Prop :=
  ∀ c, containsN m c = true → containsN new c = false →
    ∀ d, isRunningAt old (c.neighbor d) = true → containsN m (c.neighbor d) = true

/-- The full specification of one `seek_nodes` call with the stop
transform, used in the induction on fuel. -/
def StopSeekConcl (old : Nodes) (fuel : Nat) (new : Nodes) (c : NodeCoord) : Prop :=
  ∃ m, (seekNodes stopNodeExecution fuel old new c = some (Except.ok m) ∨
        seekNodes stopNodeExecution fuel old new c = some (Except.error m)) ∧
    submapN new m ∧ StopSound old new m ∧ StopClosed old new m ∧
    (isRunningAt old c = true → containsN m c = true) ∧
    (isRunningAt old c = true → containsN new c = false →
      seekNodes stopNodeExecution fuel old new c = some (Except.ok m))

/-- The corresponding specification of one unrolled loop iteration
(`mergeSeek` applied to a recursive `seek_nodes` call). -/
def StopVisitConcl (old : Nodes) (fuel : Nat) (new : Nodes) (c : NodeCoord) : Prop :=
  ∃ m, mergeSeek (seekNodes stopNodeExecution fuel old new c) = some m ∧
    submapN new m ∧ StopSound old new m ∧ StopClosed old new m ∧
    (isRunningAt old c = true → containsN m c = true)

/-- A `Src` operand that resolves locally (immediate, `ACC` or `NIL`),
together with its value. -/
def LocalSrc (ex : NodeExec) (src : Src) (v : Int) : Prop :=
  src = Src.imm v ∨ (src = Src.acc ∧ v = ex.acc) ∨ (src = Src.nil ∧ v = 0)

/-- An outbox that is not holding a pending outbound value. -/
def NotOutbound (io : NodeIo) : Prop := ∀ d w, io ≠ NodeIo.outbound d w

/-- Claim C1 scenario: sender below, receiver directly above. -/
def rvS : NodeCoord := ⟨0, 0⟩

def rvR : NodeCoord := ⟨0, -1⟩

def rvSenderCode : List (Instruction Nat) :=
  [⟨Op.mov (Src.imm 5) (Dst.dir Dir.up), 0⟩, ⟨Op.nop, 1⟩]

def rvReceiverCode : List (Instruction Nat) :=
  [⟨Op.mov (Src.dir Dir.down) Dst.acc, 0⟩, ⟨Op.nop, 1⟩]

def rvSender : ExecNode :=
  ⟨"MOV 5 UP\nNOP".toList, 0, 0, none, some ⟨0, 0, rvSenderCode, NodeIo.free, 0⟩⟩

def rvReceiver : ExecNode :=
  ⟨"MOV DOWN ACC\nNOP".toList, 0, 0, none, some ⟨0, 0, rvReceiverCode, NodeIo.free, 0⟩⟩

def rvG : Nodes := [(rvS, rvSender), (rvR, rvReceiver)]

/-- One tick of the C1 grid from a given start coordinate. -/
def rvAfter1 (start : NodeCoord) : Nodes := (tabStep 6 rvG start).getD []

/-- Two ticks of the C1 grid from a given start coordinate. -/
def rvAfter2 (start : NodeCoord) : Nodes :=
  (tabStep 6 (rvAfter1 start) start).getD []

/-- Claim C2 scenario: a label declared after the last instruction. -/
def c2Loc : NodeCoord := ⟨0, 0⟩

def c2Text : List Char := "JMP A\nA:".toList

def c2G : Nodes := [(c2Loc, ⟨c2Text, 0, 0, none, none⟩)]

/-- Claim C3 scenario: type a program, start it, then type an invalid
character into the running node — the node operations the claim ranges
over (edit / step / stop), applied in sequence. -/
def c3Loc : NodeCoord := ⟨0, 0⟩

def c3Trace : Option ExecNode := do
  let n1 ← ExecNode.empty.insert "NOP".toList
  let g1 ← tabStep 5 [(c3Loc, n1)] c3Loc
  let n2 ← lookupN g1 c3Loc
  n2.insert "X".toList

/-- Claim C5 scenario: a running node with `acc = -128` about to execute
`NEG`. -/
def c5Loc : NodeCoord := ⟨0, 0⟩

def c5G : Nodes :=
  [(c5Loc, ⟨"NEG".toList, 0, 0, none, some ⟨-128, 0, [⟨Op.neg, 0⟩], NodeIo.free, 0⟩⟩)]

/-- A parked (Ready, not running) one-instruction node. -/
def readyNop : ExecNode := ⟨"NOP".toList, 0, 0, none, none⟩

/-- A running one-instruction node. -/
def runningNop : ExecNode :=
  ⟨"NOP".toList, 0, 0, none, some ⟨0, 0, [⟨Op.nop, 0⟩], NodeIo.free, 0⟩⟩

/-- Claim C6 counterexample grid: the highlighted node (the flood-fill
start) is not running while its neighbour is. -/
def c6CG : Nodes := [(⟨0, 0⟩, readyNop), (⟨1, 0⟩, runningNop)]

/-- Claim C6 witness grid: two adjacent running nodes. -/
def c6WG : Nodes := [(⟨0, 0⟩, runningNop), (⟨1, 0⟩, runningNop)]

/-- Claim C9 scenario: the one-instruction program `JRO 0`, running. -/
def jroLoc : NodeCoord := ⟨0, 0⟩

def jroG : Nodes :=
  [(jroLoc, ⟨"JRO 0".toList, 0, 0, none,
    some ⟨0, 0, [⟨Op.jro (Src.imm 0), 0⟩], NodeIo.free, 0⟩⟩)]

/-- Claim C4 witness scenario: `acc = 120` executing `ADD 100`. -/
def c4AddG : Nodes :=
  [(⟨0, 0⟩, ⟨"ADD 100".toList, 0, 0, none,
    some ⟨120, 0, [⟨Op.add (Src.imm 100), 0⟩], NodeIo.free, 0⟩⟩)]

/-- Claim C4 witness scenario: `acc = -120` executing `SUB 100`. -/
def c4SubG : Nodes :=
  [(⟨0, 0⟩, ⟨"SUB 100".toList, 0, 0, none,
    some ⟨-120, 0, [⟨Op.sub (Src.imm 100), 0⟩], NodeIo.free, 0⟩⟩)]

/-- C1: in a grid where a Running sender's current instruction is
`MOV 5 UP` and the Running receiver in the cell directly above executes
`MOV DOWN ACC`, the first global step leaves the sender `Outbound(Up, 5)`
with an unadvanced instruction pointer, and the second global step gives
the receiver `acc = 5`, advances both instruction pointers and leaves
both outboxes empty — from either choice of flood-fill start. -/
theorem c1_rendezvous_two_ticks :
    ((tabStep 6 rvG rvS).isSome = true ∧
      lookupExec (rvAfter1 rvS) rvS =
        some ⟨0, 0, rvSenderCode, NodeIo.outbound Dir.up 5, 0⟩ ∧
      (tabStep 6 (rvAfter1 rvS) rvS).isSome = true ∧
      lookupExec (rvAfter2 rvS) rvR = some ⟨5, 0, rvReceiverCode, NodeIo.free, 1⟩ ∧
      lookupExec (rvAfter2 rvS) rvS = some ⟨0, 0, rvSenderCode, NodeIo.free, 1⟩) ∧
    ((tabStep 6 rvG rvR).isSome = true ∧
      lookupExec (rvAfter1 rvR) rvS =
        some ⟨0, 0, rvSenderCode, NodeIo.outbound Dir.up 5, 0⟩ ∧
      (tabStep 6 (rvAfter1 rvR) rvR).isSome = true ∧
      lookupExec (rvAfter2 rvR) rvR = some ⟨5, 0, rvReceiverCode, NodeIo.free, 1⟩ ∧
      lookupExec (rvAfter2 rvR) rvS = some ⟨0, 0, rvSenderCode, NodeIo.free, 1⟩) := by
  decide

/-- C2 failing input: the program `JMP A` / `A:` parses (the trailing
label binds past the end of the code), after two ticks the running
node's `ip` equals the code length 1 — outside the claimed `[0, len)` —
and the third tick's unchecked instruction fetch panics (`none`). -/
theorem c2_trailing_label_escapes_ip_bounds :
    parseNodeText c2Text = Except.ok [⟨Op.jmp 1, 0⟩] ∧
    (tabIter 5 c2Loc 2 c2G).isSome = true ∧
    (lookupExec ((tabIter 5 c2Loc 2 c2G).getD []) c2Loc).map NodeExec.ip = some 1 ∧
    (lookupExec ((tabIter 5 c2Loc 2 c2G).getD []) c2Loc).map
      (fun e => e.code.length) = some 1 ∧
    tabIter 5 c2Loc 3 c2G = none := by
  decide

/-- C3 failing trace: insert `NOP` into an empty node, start it with a
global step, then insert `X` into the now-running node — the resulting
node holds a parse error and a running runtime simultaneously, violating
the claimed invariant (and the `debug_assert` in `render_nodes`). -/
theorem c3_reachable_errored_and_running :
    c3Trace.map (fun n => (n.error.isSome, n.exec.isSome)) = some (true, true) ∧
    c3Trace.map ExecNode.error =
      some (some ⟨ParseProblem.invalidInstruction, 0⟩) := by
  decide

/-- C5 failing input: a running node with `acc = -128` executing `NEG`
ends with `acc = -128` (two's-complement negation; an overflow panic in
debug builds), not the `saturating_neg` result `127` the claim states. -/
theorem c5_neg_is_not_saturating :
    (tabStep 5 c5G c5Loc).isSome = true ∧
    lookupExec ((tabStep 5 c5G c5Loc).getD []) c5Loc =
      some ⟨-128, 0, [⟨Op.neg, 0⟩], NodeIo.free, 0⟩ := by
  decide

/-- C7 failing input: inserting 300 characters into an empty node panics
inside `ArrayString::push_str` (`none`) instead of being refused; an
in-capacity insert that violates the line-length bound is refused with
the node unchanged, and the rewrite in src/exec_node.rs (`try_push_str`)
also refuses the 300-character insert with the node unchanged. -/
theorem c7_insert_capacity_overflow_panics :
    ExecNode.insert ExecNode.empty (List.replicate 300 'A') = none ∧
    ExecNode.insert ExecNode.empty (List.replicate 19 'A') = some ExecNode.empty ∧
    ExecNode.insertRs ExecNode.empty (List.replicate 300 'A') = some ExecNode.empty := by
  decide

/-- C8 counterexample: `MOV ANY ACC` and `MOV ACC LAST` do not parse
successfully — they yield `InvalidSrc` / `InvalidDst`, contradicting the
claim that the tokens `ANY` and `LAST` parse to the Any/Last addressing
modes. -/
theorem c8_any_last_counterexample :
    parseNodeText "MOV ANY ACC".toList = Except.error ⟨ParseProblem.invalidSrc, 0⟩ ∧
    parseNodeText "MOV ACC LAST".toList = Except.error ⟨ParseProblem.invalidDst, 0⟩ := by
  decide

/-- C8 amended: the tokens `ANY` and `LAST` are not part of the operand
grammar — in a `Src` position they fail as `InvalidSrc`, in a `Dst`
position as `InvalidDst`, whatever the rest of the token stream; in
particular `MOV ANY ACC` and `MOV ACC LAST` are rejected. -/
theorem c8_any_last_rejected :
    (∀ rest line, expectSrc (['A', 'N', 'Y'] :: rest) line =
      Except.error ⟨ParseProblem.invalidSrc, line⟩) ∧
    (∀ rest line, expectSrc (['L', 'A', 'S', 'T'] :: rest) line =
      Except.error ⟨ParseProblem.invalidSrc, line⟩) ∧
    (∀ rest line, expectDst (['A', 'N', 'Y'] :: rest) line =
      Except.error ⟨ParseProblem.invalidDst, line⟩) ∧
    (∀ rest line, expectDst (['L', 'A', 'S', 'T'] :: rest) line =
      Except.error ⟨ParseProblem.invalidDst, line⟩) ∧
    parseNodeText "MOV ANY ACC".toList = Except.error ⟨ParseProblem.invalidSrc, 0⟩ ∧
    parseNodeText "MOV ACC LAST".toList = Except.error ⟨ParseProblem.invalidDst, 0⟩ :=
  ⟨fun _ _ => rfl, fun _ _ => rfl, fun _ _ => rfl, fun _ _ => rfl,
    by decide, by decide⟩

/-- C4: a running node whose current instruction is `ADD src` (resp.
`SUB src`) with a locally resolving `src` (immediate, `ACC` or `NIL`)
steps to `acc.saturating_add value` (resp. `saturating_sub`), advances the
instruction pointer (wrapping at the end of the code) and leaves `bak`,
code and outbox unchanged — for every grid, accumulator and program. -/
theorem c4_add_sub_saturating :
    (∀ (oldNodes newNodes : Nodes) (loc : NodeCoord) (node : ExecNode)
        (ex : NodeExec) (src : Src) (v : Int) (ln : Nat),
      lookupN oldNodes loc = some node →
      containsN newNodes loc = false →
      node.exec = some ex →
      NotOutbound ex.io →
      ex.code.get? ex.ip = some ⟨Op.add src, ln⟩ →
      LocalSrc ex src v →
      stepNodeExecution oldNodes newNodes loc =
        some (Except.ok (insertN loc
          { node with exec := some ⟨satAdd ex.acc v, ex.bak, ex.code, ex.io,
              if ex.code.length ≤ ex.ip + 1 then 0 else ex.ip + 1⟩ }
          newNodes))) ∧
    (∀ (oldNodes newNodes : Nodes) (loc : NodeCoord) (node : ExecNode)
        (ex : NodeExec) (src : Src) (v : Int) (ln : Nat),
      lookupN oldNodes loc = some node →
      containsN newNodes loc = false →
      node.exec = some ex →
      NotOutbound ex.io →
      ex.code.get? ex.ip = some ⟨Op.sub src, ln⟩ →
      LocalSrc ex src v →
      stepNodeExecution oldNodes newNodes loc =
        some (Except.ok (insertN loc
          { node with exec := some ⟨satSub ex.acc v, ex.bak, ex.code, ex.io,
              if ex.code.length ≤ ex.ip + 1 then 0 else ex.ip + 1⟩ }
          newNodes))) := by
  constructor
  · intro oldNodes newNodes loc node ex src v ln hlook hnew hexec hio hfetch hsrc
    have hionotout : ∀ d w, ex.io ≠ NodeIo.outbound d w := hio
    simp only [stepNodeExecution, hlook, hnew, hexec]
    rcases hioeq : ex.io with _ | ⟨d, w⟩ | d
    · simp only [hfetch, execInstr, NodeExec.incIp]
      rcases hsrc with rfl | ⟨rfl, rfl⟩ | ⟨rfl, rfl⟩ <;>
        simp [getSrcValue, hioeq] <;> split <;> rfl
    · exact absurd hioeq (hionotout d w)
    · simp only [hfetch, execInstr, NodeExec.incIp]
      rcases hsrc with rfl | ⟨rfl, rfl⟩ | ⟨rfl, rfl⟩ <;>
        simp [getSrcValue, hioeq] <;> split <;> rfl
  · intro oldNodes newNodes loc node ex src v ln hlook hnew hexec hio hfetch hsrc
    have hionotout : ∀ d w, ex.io ≠ NodeIo.outbound d w := hio
    simp only [stepNodeExecution, hlook, hnew, hexec]
    rcases hioeq : ex.io with _ | ⟨d, w⟩ | d
    · simp only [hfetch, execInstr, NodeExec.incIp]
      rcases hsrc with rfl | ⟨rfl, rfl⟩ | ⟨rfl, rfl⟩ <;>
        simp [getSrcValue, hioeq] <;> split <;> rfl
    · exact absurd hioeq (hionotout d w)
    · simp only [hfetch, execInstr, NodeExec.incIp]
      rcases hsrc with rfl | ⟨rfl, rfl⟩ | ⟨rfl, rfl⟩ <;>
        simp [getSrcValue, hioeq] <;> split <;> rfl

/-- C4 witness: `acc = 120` executing `ADD 100` saturates to `127`, and
`acc = -120` executing `SUB 100` saturates to `-128`. -/
theorem c4_add_sub_saturating_witness :
    stepNodeExecution c4AddG [] ⟨0, 0⟩ =
      some (Except.ok (insertN ⟨0, 0⟩
        ⟨"ADD 100".toList, 0, 0, none,
          some ⟨127, 0, [⟨Op.add (Src.imm 100), 0⟩], NodeIo.free, 0⟩⟩ [])) ∧
    stepNodeExecution c4SubG [] ⟨0, 0⟩ =
      some (Except.ok (insertN ⟨0, 0⟩
        ⟨"SUB 100".toList, 0, 0, none,
          some ⟨-128, 0, [⟨Op.sub (Src.imm 100), 0⟩], NodeIo.free, 0⟩⟩ [])) := by
  constructor
  · have h := c4_add_sub_saturating.1 c4AddG [] ⟨0, 0⟩
      ⟨"ADD 100".toList, 0, 0, none,
        some ⟨120, 0, [⟨Op.add (Src.imm 100), 0⟩], NodeIo.free, 0⟩⟩
      ⟨120, 0, [⟨Op.add (Src.imm 100), 0⟩], NodeIo.free, 0⟩
      (Src.imm 100) 100 0 (by decide) (by decide) rfl
      (fun _ _ h => by cases h) rfl (Or.inl rfl)
    exact h.trans (by decide)
  · have h := c4_add_sub_saturating.2 c4SubG [] ⟨0, 0⟩
      ⟨"SUB 100".toList, 0, 0, none,
        some ⟨-120, 0, [⟨Op.sub (Src.imm 100), 0⟩], NodeIo.free, 0⟩⟩
      ⟨-120, 0, [⟨Op.sub (Src.imm 100), 0⟩], NodeIo.free, 0⟩
      (Src.imm 100) 100 0 (by decide) (by decide) rfl
      (fun _ _ h => by cases h) rfl (Or.inl rfl)
    exact h.trans (by decide)

/-- C9: `JRO` with a resolved offset `v` sets `ip - |v|` (saturating at
0) for negative `v`, and `ip + v` clamped to `len - 1` for non-negative
`v` — both when the offset resolves locally (immediate, `ACC`, `NIL`)
and when it resolves from a neighbour port by a successful rendezvous
(which additionally retires the sender: its IP advances and its outbox
clears); these two cases cover every `Src` constructor of src/main.rs.
Moreover the one-instruction program `JRO 0` stepped any number of times
leaves the grid unchanged with `ip = 0`. -/
theorem c9_jro_semantics :
    (∀ (oldNodes newNodes : Nodes) (loc : NodeCoord) (node : ExecNode)
        (ex : NodeExec) (src : Src) (v : Int) (ln : Nat),
      lookupN oldNodes loc = some node →
      containsN newNodes loc = false →
      node.exec = some ex →
      NotOutbound ex.io →
      ex.code.get? ex.ip = some ⟨Op.jro src, ln⟩ →
      LocalSrc ex src v →
      stepNodeExecution oldNodes newNodes loc =
        some (Except.ok (insertN loc
          { node with exec := some ⟨ex.acc, ex.bak, ex.code, ex.io,
              if v < 0 then ex.ip - v.natAbs
              else min (ex.ip + v.toNat) (ex.code.length - 1)⟩ }
          newNodes))) ∧
    (∀ (oldNodes newNodes : Nodes) (loc : NodeCoord) (node : ExecNode)
        (ex : NodeExec) (d : Dir) (v : Int) (ln : Nat)
        (nbNode : ExecNode) (nbEx : NodeExec),
      lookupN oldNodes loc = some node →
      containsN newNodes loc = false →
      node.exec = some ex →
      NotOutbound ex.io →
      ex.code.get? ex.ip = some ⟨Op.jro (Src.dir d), ln⟩ →
      lookupN oldNodes (loc.neighbor d) = some nbNode →
      nbNode.exec = some nbEx →
      nbEx.io = NodeIo.outbound d.inverse v →
      stepNodeExecution oldNodes newNodes loc =
        some (Except.ok (insertN loc
          { node with exec := some ⟨ex.acc, ex.bak, ex.code, NodeIo.free,
              if v < 0 then ex.ip - v.natAbs
              else min (ex.ip + v.toNat) (ex.code.length - 1)⟩ }
          (insertN (loc.neighbor d)
            { nbNode with exec := some ⟨nbEx.acc, nbEx.bak, nbEx.code, NodeIo.free,
                if nbEx.code.length ≤ nbEx.ip + 1 then 0 else nbEx.ip + 1⟩ }
            newNodes)))) ∧
    (∀ n, tabIter 5 jroLoc n jroG = some jroG) ∧
    (lookupExec jroG jroLoc).map NodeExec.ip = some 0 := by
  have hjro : ∀ (v : Int) (exa : NodeExec),
      exa.jro v = ⟨exa.acc, exa.bak, exa.code, exa.io,
        if v < 0 then exa.ip - v.natAbs
        else min (exa.ip + v.toNat) (exa.code.length - 1)⟩ := by
    intro v exa
    simp only [NodeExec.jro]
    split
    · rfl
    · split
      · have hm : min (exa.ip + v.toNat) (exa.code.length - 1) =
            exa.code.length - 1 := by omega
        rw [hm]
      · have hm : min (exa.ip + v.toNat) (exa.code.length - 1) =
            exa.ip + v.toNat := by omega
        rw [hm]
  refine ⟨?_, ?_, ?_, by decide⟩
  · intro oldNodes newNodes loc node ex src v ln hlook hnew hexec hio hfetch hsrc
    have hionotout : ∀ d w, ex.io ≠ NodeIo.outbound d w := hio
    simp only [stepNodeExecution, hlook, hnew, hexec]
    rcases hioeq : ex.io with _ | ⟨d, w⟩ | d
    · simp only [hfetch, execInstr]
      rcases hsrc with rfl | ⟨rfl, rfl⟩ | ⟨rfl, rfl⟩ <;>
        simp [getSrcValue, hioeq, hjro]
    · exact absurd hioeq (hionotout d w)
    · simp only [hfetch, execInstr]
      rcases hsrc with rfl | ⟨rfl, rfl⟩ | ⟨rfl, rfl⟩ <;>
        simp [getSrcValue, hioeq, hjro]
  · intro oldNodes newNodes loc node ex d v ln nbNode nbEx
    intro hlook hnew hexec hio hfetch hnb hnbexec hnbio
    have hionotout : ∀ dd w, ex.io ≠ NodeIo.outbound dd w := hio
    have hincio : ∀ e : NodeExec,
        ({ e.incIp with io := NodeIo.free } : NodeExec) =
          ⟨e.acc, e.bak, e.code, NodeIo.free,
            if e.code.length ≤ e.ip + 1 then 0 else e.ip + 1⟩ := by
      intro e
      simp only [NodeExec.incIp]
      split <;> rfl
    simp only [stepNodeExecution, hlook, hnew, hexec]
    rcases hioeq : ex.io with _ | ⟨dd, w⟩ | dd
    · simp only [hfetch, execInstr]
      simp [getSrcValue, hnb, hnbexec, hnbio, hjro, hincio]
    · exact absurd hioeq (hionotout dd w)
    · simp only [hfetch, execInstr]
      simp [getSrcValue, hnb, hnbexec, hnbio, hjro, hincio]
  · have hfix : tabStep 5 jroG jroLoc = some jroG := by decide
    intro n
    induction n with
    | zero => rfl
    | succ n ih => simp only [tabIter, hfix]; exact ih

/-- C9 witness: the local rule applied to the concrete `JRO 0` node
(offset 0 leaves `ip = 0`), the port rule applied to a concrete reader of
`JRO UP` whose upper neighbour offers `Outbound(Down, 2)` (the reader
jumps to `ip = 2` and the sender is retired), and three concrete ticks of
`JRO 0`. -/
theorem c9_jro_semantics_witness :
    stepNodeExecution jroG [] jroLoc =
      some (Except.ok (insertN jroLoc
        ⟨"JRO 0".toList, 0, 0, none,
          some ⟨0, 0, [⟨Op.jro (Src.imm 0), 0⟩], NodeIo.free, 0⟩⟩ [])) ∧
    stepNodeExecution
      [(⟨0, 0⟩, ⟨"JRO UP\nNOP\nNOP".toList, 0, 0, none,
          some ⟨0, 0, [⟨Op.jro (Src.dir Dir.up), 0⟩, ⟨Op.nop, 1⟩, ⟨Op.nop, 2⟩],
            NodeIo.free, 0⟩⟩),
        (⟨0, -1⟩, ⟨"MOV 2 DOWN".toList, 0, 0, none,
          some ⟨0, 0, [⟨Op.mov (Src.imm 2) (Dst.dir Dir.down), 0⟩],
            NodeIo.outbound Dir.down 2, 0⟩⟩)] [] ⟨0, 0⟩ =
      some (Except.ok (insertN ⟨0, 0⟩
        ⟨"JRO UP\nNOP\nNOP".toList, 0, 0, none,
          some ⟨0, 0, [⟨Op.jro (Src.dir Dir.up), 0⟩, ⟨Op.nop, 1⟩, ⟨Op.nop, 2⟩],
            NodeIo.free, 2⟩⟩
        (insertN ⟨0, -1⟩
          ⟨"MOV 2 DOWN".toList, 0, 0, none,
            some ⟨0, 0, [⟨Op.mov (Src.imm 2) (Dst.dir Dir.down), 0⟩],
              NodeIo.free, 0⟩⟩ []))) ∧
    tabIter 5 jroLoc 3 jroG = some jroG := by
  refine ⟨?_, ?_, c9_jro_semantics.2.2.1 3⟩
  · have h := c9_jro_semantics.1 jroG [] jroLoc
      ⟨"JRO 0".toList, 0, 0, none,
        some ⟨0, 0, [⟨Op.jro (Src.imm 0), 0⟩], NodeIo.free, 0⟩⟩
      ⟨0, 0, [⟨Op.jro (Src.imm 0), 0⟩], NodeIo.free, 0⟩
      (Src.imm 0) 0 0 (by decide) (by decide) rfl
      (fun _ _ h => by cases h) rfl (Or.inl rfl)
    exact h.trans (by decide)
  · have h := c9_jro_semantics.2.1
      [(⟨0, 0⟩, ⟨"JRO UP\nNOP\nNOP".toList, 0, 0, none,
          some ⟨0, 0, [⟨Op.jro (Src.dir Dir.up), 0⟩, ⟨Op.nop, 1⟩, ⟨Op.nop, 2⟩],
            NodeIo.free, 0⟩⟩),
        (⟨0, -1⟩, ⟨"MOV 2 DOWN".toList, 0, 0, none,
          some ⟨0, 0, [⟨Op.mov (Src.imm 2) (Dst.dir Dir.down), 0⟩],
            NodeIo.outbound Dir.down 2, 0⟩⟩)] [] ⟨0, 0⟩
      ⟨"JRO UP\nNOP\nNOP".toList, 0, 0, none,
        some ⟨0, 0, [⟨Op.jro (Src.dir Dir.up), 0⟩, ⟨Op.nop, 1⟩, ⟨Op.nop, 2⟩],
          NodeIo.free, 0⟩⟩
      ⟨0, 0, [⟨Op.jro (Src.dir Dir.up), 0⟩, ⟨Op.nop, 1⟩, ⟨Op.nop, 2⟩],
        NodeIo.free, 0⟩
      Dir.up 2 0
      ⟨"MOV 2 DOWN".toList, 0, 0, none,
        some ⟨0, 0, [⟨Op.mov (Src.imm 2) (Dst.dir Dir.down), 0⟩],
          NodeIo.outbound Dir.down 2, 0⟩⟩
      ⟨0, 0, [⟨Op.mov (Src.imm 2) (Dst.dir Dir.down), 0⟩],
        NodeIo.outbound Dir.down 2, 0⟩
      (by decide) (by decide) rfl (fun _ _ h => by cases h) rfl
      (by decide) rfl (by decide)
    exact h.trans (by decide)

/-- C10: direction inversion is an involution, and for every coordinate
whose components are strictly between `isize::MIN` and `isize::MAX`,
stepping to a neighbour and back along the inverse direction returns to
the original coordinate. -/
theorem c10_direction_coordinate_roundtrip :
    (∀ d : Dir, d.inverse.inverse = d) ∧
    (∀ (c : NodeCoord) (d : Dir),
      -(2 : Int) ^ 63 < c.x → c.x < 2 ^ 63 - 1 →
      -(2 : Int) ^ 63 < c.y → c.y < 2 ^ 63 - 1 →
      (c.neighbor d).neighbor d.inverse = c) := by
  have h63 : (2 : Int) ^ (63 : Nat) = 9223372036854775808 := by norm_num
  have h64 : (2 : Int) ^ (64 : Nat) = 18446744073709551616 := by norm_num
  constructor
  · intro d; cases d <;> rfl
  · rintro ⟨x, y⟩ d hx1 hx2 hy1 hy2
    simp only [h63] at hx1 hx2 hy1 hy2
    cases d <;>
      simp only [NodeCoord.neighbor, Dir.inverse, wrapIsize, NodeCoord.mk.injEq] <;>
      rw [h63, h64] <;>
      refine ⟨?_, ?_⟩ <;> first
        | trivial
        | omega

/-- C10 witness: the round trip at the concrete coordinate `(3, 7)` in
direction `Up`. -/
theorem c10_direction_coordinate_roundtrip_witness :
    ((NodeCoord.at 3 7).neighbor Dir.up).neighbor Dir.up.inverse = NodeCoord.at 3 7 :=
  c10_direction_coordinate_roundtrip.2 (NodeCoord.at 3 7) Dir.up
    (by simp only [NodeCoord.at]; norm_num) (by simp only [NodeCoord.at]; norm_num)
    (by simp only [NodeCoord.at]; norm_num) (by simp only [NodeCoord.at]; norm_num)

theorem lookupN_insertN_self (m : Nodes) (c : NodeCoord) (v : ExecNode) :
    lookupN (insertN c v m) c = some v := by
  simp [insertN, lookupN]

theorem lookupN_filterNe (m : Nodes) (c c' : NodeCoord) (h : c' ≠ c) :
    lookupN (m.filter (fun p => decide (p.1 ≠ c))) c' = lookupN m c' := by
  induction m with
  | nil => rfl
  | cons p rest ih =>
      by_cases hp : p.1 = c
      · rw [List.filter_cons_of_neg (by simp [hp])]
        rw [ih]
        simp only [lookupN]
        rw [if_neg (by rw [hp]; exact fun he => h he.symm)]
      · rw [List.filter_cons_of_pos (by simp [hp])]
        simp only [lookupN]
        by_cases hpc : p.1 = c'
        · rw [if_pos hpc, if_pos hpc]
        · rw [if_neg hpc, if_neg hpc, ih]

theorem lookupN_insertN_ne (m : Nodes) (c c' : NodeCoord) (v : ExecNode)
    (h : c' ≠ c) : lookupN (insertN c v m) c' = lookupN m c' := by
  simp only [insertN, lookupN]
  rw [if_neg (fun hc => h hc.symm), lookupN_filterNe m c c' h]

theorem containsN_insertN_self (m : Nodes) (c : NodeCoord) (v : ExecNode) :
    containsN (insertN c v m) c = true := by
  simp [containsN, lookupN_insertN_self]

theorem containsN_insertN_of (m : Nodes) (c c' : NodeCoord) (v : ExecNode)
    (h : containsN m c' = true) : containsN (insertN c v m) c' = true := by
  by_cases hc : c' = c
  · subst hc; exact containsN_insertN_self m c' v
  · simpa [containsN, lookupN_insertN_ne m c c' v hc] using h

theorem submapN_refl (m : Nodes) : submapN m m := fun _ _ h => h

theorem submapN_trans {a b c : Nodes} (h1 : submapN a b) (h2 : submapN b c) :
    submapN a c := fun cc v h => h2 cc v (h1 cc v h)

theorem submapN_insertN (m : Nodes) (c : NodeCoord) (v : ExecNode)
    (h : containsN m c = false) : submapN m (insertN c v m) := by
  intro c' v' hl
  have hne : c' ≠ c := by
    intro he
    subst he
    simp [containsN, hl] at h
  rw [lookupN_insertN_ne m c c' v hne]
  exact hl

theorem containsN_mono {a b : Nodes} (h : submapN a b) (c : NodeCoord)
    (hc : containsN a c = true) : containsN b c = true := by
  simp only [containsN, Option.isSome_iff_exists] at hc ⊢
  obtain ⟨v, hv⟩ := hc
  exact ⟨v, h c v hv⟩

theorem lookupN_mem (m : Nodes) (c : NodeCoord) (v : ExecNode)
    (h : lookupN m c = some v) : (c, v) ∈ m := by
  induction m with
  | nil => simp [lookupN] at h
  | cons p rest ih =>
      simp only [lookupN] at h
      by_cases hp : p.1 = c
      · rw [if_pos hp] at h
        injection h with h
        obtain ⟨p1, p2⟩ := p
        simp only at hp h
        subst hp
        subst h
        exact List.mem_cons_self _ _
      · rw [if_neg hp] at h
        exact List.mem_cons_of_mem p (ih h)

theorem filterLenMono {α : Type} (l : List α) (p q : α → Bool)
    (h : ∀ a ∈ l, q a = true → p a = true) :
    (l.filter q).length ≤ (l.filter p).length := by
  induction l with
  | nil => simp
  | cons a rest ih =>
      have hrest := ih (fun x hx => h x (List.mem_cons_of_mem a hx))
      by_cases hq : q a = true
      · have hp := h a (List.mem_cons_self a rest) hq
        rw [List.filter_cons_of_pos hq, List.filter_cons_of_pos hp]
        simpa using hrest
      · rw [List.filter_cons_of_neg (by simpa using hq)]
        by_cases hp : p a = true
        · rw [List.filter_cons_of_pos hp]
          exact Nat.le_succ_of_le hrest
        · rw [List.filter_cons_of_neg (by simpa using hp)]
          exact hrest

theorem filterLenStrict {α : Type} (l : List α) (p q : α → Bool)
    (h : ∀ a ∈ l, q a = true → p a = true) (a : α) (ha : a ∈ l)
    (hpa : p a = true) (hqa : q a = false) :
    (l.filter q).length < (l.filter p).length := by
  induction l with
  | nil => simp at ha
  | cons b rest ih =>
      have hrest : ∀ x ∈ rest, q x = true → p x = true :=
        fun x hx => h x (List.mem_cons_of_mem b hx)
      rcases List.mem_cons.mp ha with rfl | hmem
      · rw [List.filter_cons_of_neg (by simp [hqa]), List.filter_cons_of_pos hpa]
        exact Nat.lt_succ_of_le (filterLenMono rest p q hrest)
      · by_cases hqb : q b = true
        · have hpb := h b (List.mem_cons_self b rest) hqb
          rw [List.filter_cons_of_pos hqb, List.filter_cons_of_pos hpb]
          simpa using ih hrest hmem
        · rw [List.filter_cons_of_neg (by simpa using hqb)]
          by_cases hpb : p b = true
          · rw [List.filter_cons_of_pos hpb]
            exact Nat.lt_succ_of_lt (ih hrest hmem)
          · rw [List.filter_cons_of_neg (by simpa using hpb)]
            exact ih hrest hmem

theorem countRunNotIn_le (old : Nodes) {a b : Nodes} (h : submapN a b) :
    countRunNotIn old b ≤ countRunNotIn old a := by
  apply filterLenMono
  intro p _ hq
  simp only [Bool.and_eq_true, Bool.not_eq_true'] at hq ⊢
  refine ⟨hq.1, ?_⟩
  by_cases hc : containsN a p.1 = true
  · have := containsN_mono h p.1 hc
    rw [this] at hq
    exact absurd hq.2 (by simp)
  · simpa using hc

theorem countRunNotIn_lt (old new : Nodes) (c : NodeCoord) (v : ExecNode)
    (hrun : isRunningAt old c = true) (hnc : containsN new c = false) :
    countRunNotIn old (insertN c v new) < countRunNotIn old new := by
  simp only [isRunningAt] at hrun
  rcases hl : lookupN old c with _ | n
  · rw [hl] at hrun; exact absurd hrun (by simp)
  · rw [hl] at hrun
    apply filterLenStrict _ _ _ _ (c, n) (lookupN_mem old c n hl)
    · simp only [Bool.and_eq_true, Bool.not_eq_true']
      exact ⟨hrun, hnc⟩
    · simp only [Bool.and_eq_false_iff, Bool.not_eq_false']
      right
      exact containsN_insertN_self new c v
    · intro p _ hq
      simp only [Bool.and_eq_true, Bool.not_eq_true'] at hq ⊢
      refine ⟨hq.1, ?_⟩
      by_cases hcp : containsN new p.1 = true
      · have := containsN_insertN_of new c p.1 v hcp
        rw [this] at hq
        exact absurd hq.2 (by simp)
      · simpa using hcp

theorem stopSound_trans {old new a b : Nodes} (h1 : StopSound old new a)
    (h2 : StopSound old a b) : StopSound old new b := by
  intro c v hl
  rcases h2 c v hl with h | h
  · exact h1 c v h
  · exact Or.inr h

theorem stopSound_insertN (old new : Nodes) (c : NodeCoord) (node : ExecNode)
    (ex : NodeExec) (hl : lookupN old c = some node) (he : node.exec = some ex) :
    StopSound old new (insertN c { node with exec := none } new) := by
  intro c' v hv
  by_cases hc : c' = c
  · subst hc
    rw [lookupN_insertN_self] at hv
    injection hv with hv
    exact Or.inr ⟨node, hl, by simp [he], hv.symm⟩
  · rw [lookupN_insertN_ne _ _ _ _ hc] at hv
    exact Or.inl hv

theorem stopVisitOfSeek (old : Nodes) (fuel : Nat)
    (ih : ∀ newV cV, countRunNotIn old newV < fuel → StopSeekConcl old fuel newV cV)
    (newV : Nodes) (cV : NodeCoord) (h : countRunNotIn old newV < fuel) :
    StopVisitConcl old fuel newV cV := by
  obtain ⟨m, hres, hsub, hsound, hclosed, hrun, _⟩ := ih newV cV h
  refine ⟨m, ?_, hsub, hsound, hclosed, hrun⟩
  rcases hres with h1 | h1 <;> rw [h1] <;> rfl

theorem containsN_insertN_ne (m : Nodes) (c c' : NodeCoord) (v : ExecNode)
    (h : c' ≠ c) : containsN (insertN c v m) c' = containsN m c' := by
  simp [containsN, lookupN_insertN_ne m c c' v h]

theorem stopSeekSpec (old : Nodes) :
    ∀ (fuel : Nat) (new : Nodes) (c : NodeCoord),
      countRunNotIn old new < fuel → StopSeekConcl old fuel new c := by
  intro fuel
  induction fuel with
  | zero => intro new c h; exact absurd h (Nat.not_lt_zero _)
  | succ fuel ih =>
      intro new c hcount
      rcases hl : lookupN old c with _ | node
      · -- no node at `c`: the transform fails and nothing changes
        have hnr : isRunningAt old c = false := by simp [isRunningAt, hl]
        have hseek0 : seekNodes stopNodeExecution (fuel + 1) old new c =
            some (Except.error new) := by
          simp [seekNodes, stopNodeExecution, hl]
        refine ⟨new, Or.inr hseek0, submapN_refl new, fun c' v h => Or.inl h,
          ?_, ?_, ?_⟩
        · intro c' h1 h2
          rw [h1] at h2
          cases h2
        · intro h
          rw [hnr] at h
          cases h
        · intro h
          rw [hnr] at h
          cases h
      · cases hcont : containsN new c with
        | true =>
            -- already processed: the transform fails and nothing changes
            have hseek0 : seekNodes stopNodeExecution (fuel + 1) old new c =
                some (Except.error new) := by
              simp [seekNodes, stopNodeExecution, hl, hcont]
            refine ⟨new, Or.inr hseek0, submapN_refl new, fun c' v h => Or.inl h,
              ?_, fun _ => hcont, ?_⟩
            · intro c' h1 h2
              rw [h1] at h2
              cases h2
            · intro _ hfalse
              rw [hcont] at hfalse
              cases hfalse
        | false =>
            rcases he : node.exec with _ | ex
            · -- present but not running: the transform fails
              have hnr : isRunningAt old c = false := by simp [isRunningAt, hl, he]
              have hseek0 : seekNodes stopNodeExecution (fuel + 1) old new c =
                  some (Except.error new) := by
                simp [seekNodes, stopNodeExecution, hl, hcont, he]
              refine ⟨new, Or.inr hseek0, submapN_refl new,
                fun c' v h => Or.inl h, ?_, ?_, ?_⟩
              · intro c' h1 h2
                rw [h1] at h2
                cases h2
              · intro h
                rw [hnr] at h
                cases h
              · intro h
                rw [hnr] at h
                cases h
            · -- running and fresh: clear it and recurse into the neighbours
              have hrun0 : isRunningAt old c = true := by simp [isRunningAt, hl, he]
              have htrans : stopNodeExecution old new c =
                  some (Except.ok (insertN c { node with exec := none } new)) := by
                simp [stopNodeExecution, hl, hcont, he]
              have hc1 : countRunNotIn old (insertN c { node with exec := none } new) <
                  fuel := by
                have hlt := countRunNotIn_lt old new c { node with exec := none }
                  hrun0 hcont
                omega
              obtain ⟨m1, hres1, hsub1, hsound1, hclosed1, hrunm1⟩ :=
                stopVisitOfSeek old fuel ih _ (c.neighbor Dir.up) hc1
              have hc2 : countRunNotIn old m1 < fuel :=
                lt_of_le_of_lt (countRunNotIn_le old hsub1) hc1
              obtain ⟨m2, hres2, hsub2, hsound2, hclosed2, hrunm2⟩ :=
                stopVisitOfSeek old fuel ih m1 (c.neighbor Dir.down) hc2
              have hc3 : countRunNotIn old m2 < fuel :=
                lt_of_le_of_lt (countRunNotIn_le old hsub2) hc2
              obtain ⟨m3, hres3, hsub3, hsound3, hclosed3, hrunm3⟩ :=
                stopVisitOfSeek old fuel ih m2 (c.neighbor Dir.left) hc3
              have hc4 : countRunNotIn old m3 < fuel :=
                lt_of_le_of_lt (countRunNotIn_le old hsub3) hc3
              obtain ⟨m4, hres4, hsub4, hsound4, hclosed4, hrunm4⟩ :=
                stopVisitOfSeek old fuel ih m3 (c.neighbor Dir.right) hc4
              have hseek : seekNodes stopNodeExecution (fuel + 1) old new c =
                  some (Except.ok m4) := by
                simp only [seekNodes, htrans, hres1, hres2, hres3, hres4]
              have hsubnew1 : submapN new (insertN c { node with exec := none } new) :=
                submapN_insertN new c _ hcont
              have hsub14 : submapN m1 m4 :=
                submapN_trans hsub2 (submapN_trans hsub3 hsub4)
              have hsub24 : submapN m2 m4 := submapN_trans hsub3 hsub4
              have hsubfull : submapN new m4 :=
                submapN_trans hsubnew1 (submapN_trans hsub1 hsub14)
              refine ⟨m4, Or.inl hseek, hsubfull, ?_, ?_, ?_, fun _ _ => hseek⟩
              · exact stopSound_trans
                  (stopSound_trans
                    (stopSound_trans
                      (stopSound_trans (stopSound_insertN old new c node ex hl he)
                        hsound1)
                      hsound2)
                    hsound3)
                  hsound4
              · intro c' hc'm4 hc'new d hrund
                by_cases hcc : c' = c
                · subst hcc
                  cases d
                  · exact containsN_mono hsub14 _ (hrunm1 hrund)
                  · exact containsN_mono hsub24 _ (hrunm2 hrund)
                  · exact containsN_mono hsub4 _ (hrunm3 hrund)
                  · exact hrunm4 hrund
                · have hnotnew1 :
                      containsN (insertN c { node with exec := none } new) c' =
                        false := by
                    rw [containsN_insertN_ne new c c' _ hcc]
                    exact hc'new
                  by_cases h1 : containsN m1 c' = true
                  · exact containsN_mono hsub14 _ (hclosed1 c' h1 hnotnew1 d hrund)
                  · have h1f : containsN m1 c' = false := by
                      simpa using h1
                    by_cases h2 : containsN m2 c' = true
                    · exact containsN_mono hsub24 _ (hclosed2 c' h2 h1f d hrund)
                    · have h2f : containsN m2 c' = false := by
                        simpa using h2
                      by_cases h3 : containsN m3 c' = true
                      · exact containsN_mono hsub4 _ (hclosed3 c' h3 h2f d hrund)
                      · have h3f : containsN m3 c' = false := by
                          simpa using h3
                        exact hclosed4 c' hc'm4 h3f d hrund
              · intro _
                exact containsN_mono (submapN_trans hsub1 hsub14) _
                  (containsN_insertN_self new c _)

theorem extendN_lookup_of_not_contains :
    ∀ (upd base : Nodes) (c : NodeCoord), containsN upd c = false →
      lookupN (extendN base upd) c = lookupN base c := by
  intro upd
  induction upd with
  | nil => intro base c _; rfl
  | cons p rest ih =>
      intro base c h
      have hp : p.1 ≠ c := by
        intro he
        simp [containsN, lookupN, he] at h
      have hrest : containsN rest c = false := by
        simpa [containsN, lookupN, hp] using h
      have : extendN base (p :: rest) = extendN (insertN p.1 p.2 base) rest := rfl
      rw [this, ih _ c hrest, lookupN_insertN_ne base p.1 c p.2 fun he => hp he.symm]

/-- C6 counterexample: a grid with a running node at `(1, 0)` while the
flood-fill start (the highlighted node, `(0, 0)`) is present but not
running — stop reports the `WasAlreadyStopped` signal (`none`) even
though a node is running, contradicting the claim as stated. -/
theorem c6_stop_counterexample :
    isRunningAt c6CG ⟨1, 0⟩ = true ∧
    stopExecution 10 c6CG ⟨0, 0⟩ = none ∧
    lookupN c6CG ⟨0, 0⟩ = some readyNop := by
  decide

/-- C6 amended: stop reports `WasAlreadyStopped` (`none`) exactly when the
starting (highlighted) node is absent or not running — in particular
whenever no node is running; when the starting node is running, stop
reports "stopped" with an update whose entries are exactly previously
running nodes transitioned to Ready (runtime discarded), the update
covers every running node connected to the start through adjacent
running nodes, and merging it leaves all other coordinates unchanged. -/
theorem c6_stop_amended :
    (∀ (fuel : Nat) (g : Nodes) (startLoc : NodeCoord),
      isRunningAt g startLoc = false → stopExecution fuel g startLoc = none) ∧
    (∀ (fuel : Nat) (g : Nodes) (startLoc : NodeCoord),
      (∀ c, isRunningAt g c = false) → stopExecution fuel g startLoc = none) ∧
    (∀ (fuel : Nat) (g : Nodes) (startLoc : NodeCoord),
      isRunningAt g startLoc = true → countRunNotIn g [] < fuel →
      ∃ m, stopExecution fuel g startLoc = some m ∧
        (∀ c v, lookupN m c = some v →
          ∃ n, lookupN g c = some n ∧ n.exec.isSome = true ∧
            v = { n with exec := none }) ∧
        (∀ c, ReachRunning g startLoc c → containsN m c = true) ∧
        (∀ c, containsN m c = false →
          lookupN (extendN g m) c = lookupN g c)) := by
  have part1 : ∀ (fuel : Nat) (g : Nodes) (startLoc : NodeCoord),
      isRunningAt g startLoc = false → stopExecution fuel g startLoc = none := by
    intro fuel g startLoc h
    cases fuel with
    | zero => rfl
    | succ fuel =>
        rcases hl : lookupN g startLoc with _ | node
        · simp [stopExecution, seekNodes, stopNodeExecution, hl]
        · rcases he : node.exec with _ | ex
          · simp [stopExecution, seekNodes, stopNodeExecution, hl, he]
          · have htrue : isRunningAt g startLoc = true := by
              simp [isRunningAt, hl, he]
            rw [h] at htrue
            cases htrue
  refine ⟨part1, fun fuel g startLoc h => part1 fuel g startLoc (h startLoc), ?_⟩
  intro fuel g startLoc hrun hcount
  obtain ⟨m, _, _, hsound, hclosed, hrunm, hok⟩ := stopSeekSpec g fuel [] startLoc hcount
  have hseek := hok hrun rfl
  refine ⟨m, by simp [stopExecution, hseek], ?_, ?_, ?_⟩
  · intro c v hv
    rcases hsound c v hv with h | h
    · cases h
    · exact h
  · intro c hreach
    induction hreach with
    | refl h0 => exact hrunm hrun
    | tail b d hr hstep ih => exact hclosed _ ih rfl d hstep
  · intro c hc
    exact extendN_lookup_of_not_contains m g c hc

/-- C6 witness: the amended stop behaviour on a concrete grid of two
adjacent running nodes, stopped from one of them. -/
theorem c6_stop_amended_witness :
    isRunningAt c6WG ⟨0, 0⟩ = true ∧
    countRunNotIn c6WG [] < 5 ∧
    ∃ m, stopExecution 5 c6WG ⟨0, 0⟩ = some m ∧
      (∀ c v, lookupN m c = some v →
        ∃ n, lookupN c6WG c = some n ∧ n.exec.isSome = true ∧
          v = { n with exec := none }) ∧
      (∀ c, ReachRunning c6WG ⟨0, 0⟩ c → containsN m c = true) ∧
      (∀ c, containsN m c = false →
        lookupN (extendN c6WG m) c = lookupN c6WG c) :=
  ⟨by decide, by decide, c6_stop_amended.2.2 5 c6WG ⟨0, 0⟩ (by decide) (by decide)⟩
